import Mathlib

/-!
Verification of the `r2c2` statement model: IRI and BCP47 language-tag
validators (regex based), the literal / term-role / triple / quad data model
and its groundness computation.

The two validators of the source are anchored regexes
(`IRI_REGEX_SRC` in `_iri.rs`, `TAG_REGEX_SRC` in `_language_tag.rs`).
We embed them as regular-expression syntax trees (`RE`) transliterated
node by node from the regex sources, give them the standard language
semantics (`RE.Lang`), and compute matching with Brzozowski derivatives,
proved sound and complete with respect to `RE.Lang`.
-/

/-- Regular-expression syntax: empty language, empty string, a character
class (the regex sources only use classes, never a dot), concatenation,
alternation and Kleene star. -/
inductive RE where
  | emp : RE
  | eps : RE
  | cls : (Char → Bool) → RE
  | cat : RE → RE → RE
  | alt : RE → RE → RE
  | star : RE → RE

/-- Language semantics of a regular expression, over lists of characters. -/
inductive RE.Lang : RE → List Char → Prop where
  | eps : RE.Lang .eps []
  | cls {p : Char → Bool} {c : Char} : p c = true → RE.Lang (.cls p) [c]
  | cat {r s : RE} {u v : List Char} :
      RE.Lang r u → RE.Lang s v → RE.Lang (.cat r s) (u ++ v)
  | altL {r s : RE} {u : List Char} : RE.Lang r u → RE.Lang (.alt r s) u
  | altR {r s : RE} {u : List Char} : RE.Lang s u → RE.Lang (.alt r s) u
  | starNil {r : RE} : RE.Lang (.star r) []
  | starCat {r : RE} {u v : List Char} :
      RE.Lang r u → RE.Lang (.star r) v → RE.Lang (.star r) (u ++ v)

/-- Does the regex accept the empty string? -/
def RE.nullable : RE → Bool
  | .emp => false
  | .eps => true
  | .cls _ => false
  | .cat r s => r.nullable && s.nullable
  | .alt r s => r.nullable || s.nullable
  | .star _ => true

/-- Smart concatenation: absorb the empty language, drop the empty string. -/
def RE.scat : RE → RE → RE
  | .emp, _ => .emp
  | .eps, s => s
  | r, s => .cat r s

/-- Smart alternation: drop the empty language. -/
def RE.salt : RE → RE → RE
  | .emp, s => s
  | r, .emp => r
  | r, s => .alt r s

/-- Brzozowski derivative with respect to one character. -/
def RE.deriv : RE → Char → RE
  | .emp, _ => .emp
  | .eps, _ => .emp
  | .cls p, c => if p c then .eps else .emp
  | .cat r s, c =>
      if r.nullable then RE.salt (RE.scat (r.deriv c) s) (s.deriv c)
      else RE.scat (r.deriv c) s
  | .alt r s, c => RE.salt (r.deriv c) (s.deriv c)
  | .star r, c => RE.scat (r.deriv c) (.star r)

/-- Match a list of characters by iterated derivatives. -/
def RE.matchList : RE → List Char → Bool
  | r, [] => r.nullable
  | r, c :: cs => (r.deriv c).matchList cs

/-- Anchored match of a whole string (the regex sources are `^...$`-anchored
and the code uses `Regex::is_match` on them). -/
def RE.matches (r : RE) (s : String) : Bool :=
  r.matchList s.data

theorem RE.lang_emp_iff {u : List Char} : RE.Lang .emp u ↔ False := by
  constructor
  · intro h; cases h
  · intro h; cases h

theorem RE.lang_eps_iff {u : List Char} : RE.Lang .eps u ↔ u = [] := by
  constructor
  · intro h; cases h; rfl
  · intro h; subst h; exact .eps

theorem RE.lang_cls_iff {p : Char → Bool} {u : List Char} :
    RE.Lang (.cls p) u ↔ ∃ c, u = [c] ∧ p c = true := by
  constructor
  · intro h
    cases h with
    | cls hp => exact ⟨_, rfl, hp⟩
  · rintro ⟨c, rfl, hp⟩
    exact .cls hp

theorem RE.lang_cat_iff {r s : RE} {w : List Char} :
    RE.Lang (.cat r s) w ↔ ∃ u v, w = u ++ v ∧ RE.Lang r u ∧ RE.Lang s v := by
  constructor
  · intro h
    cases h with
    | cat hu hv => exact ⟨_, _, rfl, hu, hv⟩
  · rintro ⟨u, v, rfl, hu, hv⟩
    exact .cat hu hv

theorem RE.lang_alt_iff {r s : RE} {u : List Char} :
    RE.Lang (.alt r s) u ↔ RE.Lang r u ∨ RE.Lang s u := by
  constructor
  · intro h
    cases h with
    | altL h => exact Or.inl h
    | altR h => exact Or.inr h
  · rintro (h | h)
    · exact .altL h
    · exact .altR h

theorem RE.nullable_iff {r : RE} : r.nullable = true ↔ RE.Lang r [] := by
  induction r with
  | emp => simp [RE.nullable, RE.lang_emp_iff]
  | eps => simp [RE.nullable, RE.lang_eps_iff]
  | cls p => simp [RE.nullable, RE.lang_cls_iff]
  | cat r s ihr ihs =>
      simp only [RE.nullable, Bool.and_eq_true, ihr, ihs, RE.lang_cat_iff]
      constructor
      · rintro ⟨hr, hs⟩
        exact ⟨[], [], rfl, hr, hs⟩
      · rintro ⟨u, v, huv, hu, hv⟩
        rcases List.append_eq_nil.mp huv.symm with ⟨rfl, rfl⟩
        exact ⟨hu, hv⟩
  | alt r s ihr ihs =>
      simp [RE.nullable, RE.lang_alt_iff, ihr, ihs]
  | star r ih =>
      simp only [RE.nullable, true_iff]
      exact .starNil

theorem RE.lang_scat {r s : RE} {u : List Char} :
    RE.Lang (RE.scat r s) u ↔ RE.Lang (.cat r s) u := by
  cases r with
  | emp => simp [RE.scat, RE.lang_emp_iff, RE.lang_cat_iff]
  | eps =>
      simp only [RE.scat]
      constructor
      · intro h
        exact RE.lang_cat_iff.mpr ⟨[], u, rfl, .eps, h⟩
      · intro h
        rcases RE.lang_cat_iff.mp h with ⟨u1, v, huv, hu1, hv⟩
        cases hu1
        simpa [huv] using hv
  | cls p => simp only [RE.scat]
  | cat a b => simp only [RE.scat]
  | alt a b => simp only [RE.scat]
  | star a => simp only [RE.scat]

theorem RE.lang_salt {r s : RE} {u : List Char} :
    RE.Lang (RE.salt r s) u ↔ RE.Lang (.alt r s) u := by
  cases r <;> cases s <;>
    simp [RE.salt, RE.lang_alt_iff, RE.lang_emp_iff]

/-- Any word of a star language with a first character splits into a
non-empty first iteration and a remaining star word. -/
theorem RE.lang_star_cons {r : RE} {c : Char} {l : List Char}
    (h : RE.Lang (.star r) (c :: l)) :
    ∃ u v, l = u ++ v ∧ RE.Lang r (c :: u) ∧ RE.Lang (.star r) v := by
  generalize hw : (c :: l : List Char) = w at h
  generalize hr : (RE.star r : RE) = rr at h
  induction h generalizing l with
  | eps => cases hr
  | cls _ => cases hr
  | cat _ _ => cases hr
  | altL _ => cases hr
  | altR _ => cases hr
  | starNil =>
      cases hr
      cases hw
  | starCat hu hv ihu ihv =>
      cases hr
      rename_i u v
      cases u with
      | nil =>
          simp only [List.nil_append] at hw
          exact ihv hw rfl
      | cons c' u' =>
          simp only [List.cons_append, List.cons.injEq] at hw
          obtain ⟨hc, hl⟩ := hw
          subst hc
          exact ⟨u', v, hl, hu, hv⟩

theorem RE.deriv_iff {r : RE} {c : Char} {l : List Char} :
    RE.Lang (r.deriv c) l ↔ RE.Lang r (c :: l) := by
  induction r generalizing l with
  | emp => simp [RE.deriv, RE.lang_emp_iff]
  | eps => simp [RE.deriv, RE.lang_emp_iff, RE.lang_eps_iff]
  | cls p =>
      simp only [RE.deriv]
      by_cases hp : p c = true
      · rw [if_pos hp, RE.lang_eps_iff, RE.lang_cls_iff]
        constructor
        · rintro rfl
          exact ⟨c, rfl, hp⟩
        · rintro ⟨c1, hc, hpc⟩
          simp only [List.cons.injEq] at hc
          exact hc.2
      · rw [if_neg hp, RE.lang_emp_iff, RE.lang_cls_iff, false_iff]
        rintro ⟨c1, hc, hpc⟩
        simp only [List.cons.injEq] at hc
        obtain ⟨rfl, rfl⟩ := hc
        exact hp hpc
  | cat r s ihr ihs =>
      simp only [RE.deriv]
      by_cases hn : r.nullable = true
      · rw [if_pos hn, RE.lang_salt, RE.lang_alt_iff, RE.lang_scat,
          RE.lang_cat_iff, RE.lang_cat_iff]
        constructor
        · rintro (⟨u, v, rfl, hu, hv⟩ | h)
          · exact ⟨c :: u, v, rfl, ihr.mp hu, hv⟩
          · exact ⟨[], c :: l, rfl, RE.nullable_iff.mp hn, ihs.mp h⟩
        · rintro ⟨u, v, huv, hu, hv⟩
          cases u with
          | nil =>
              right
              simp only [List.nil_append] at huv
              exact ihs.mpr (huv ▸ hv)
          | cons c' u' =>
              left
              simp only [List.cons_append, List.cons.injEq] at huv
              obtain ⟨hc, hl⟩ := huv
              subst hc
              exact ⟨u', v, hl, ihr.mpr hu, hv⟩
      · rw [if_neg hn, RE.lang_scat, RE.lang_cat_iff, RE.lang_cat_iff]
        constructor
        · rintro ⟨u, v, rfl, hu, hv⟩
          exact ⟨c :: u, v, rfl, ihr.mp hu, hv⟩
        · rintro ⟨u, v, huv, hu, hv⟩
          cases u with
          | nil => exact absurd (RE.nullable_iff.mpr hu) (by simp_all)
          | cons c' u' =>
              simp only [List.cons_append, List.cons.injEq] at huv
              obtain ⟨hc, hl⟩ := huv
              subst hc
              exact ⟨u', v, hl, ihr.mpr hu, hv⟩
  | alt r s ihr ihs =>
      simp only [RE.deriv]
      rw [RE.lang_salt, RE.lang_alt_iff, RE.lang_alt_iff]
      constructor
      · rintro (h | h)
        · exact Or.inl (ihr.mp h)
        · exact Or.inr (ihs.mp h)
      · rintro (h | h)
        · exact Or.inl (ihr.mpr h)
        · exact Or.inr (ihs.mpr h)
  | star r ih =>
      simp only [RE.deriv]
      rw [RE.lang_scat, RE.lang_cat_iff]
      constructor
      · rintro ⟨u, v, rfl, hu, hv⟩
        exact (List.cons_append c u v ▸ RE.Lang.starCat (ih.mp hu) hv)
      · intro h
        obtain ⟨u, v, hl, hu, hv⟩ := RE.lang_star_cons h
        exact ⟨u, v, hl, ih.mpr hu, hv⟩

/-- Soundness and completeness of the derivative matcher with respect to
the language semantics. -/
theorem RE.matchList_iff {r : RE} {l : List Char} :
    r.matchList l = true ↔ RE.Lang r l := by
  induction l generalizing r with
  | nil => exact RE.nullable_iff
  | cons c cs ih => simpa only [RE.matchList] using (ih.trans RE.deriv_iff)

theorem RE.matches_iff {r : RE} {s : String} :
    r.matches s = true ↔ RE.Lang r s.data :=
  RE.matchList_iff

/-! ## Regex building blocks -/

/-- ASCII lowercase fold of one character, as Rust's `to_ascii_lowercase`. -/
def asciiLowerChar (c : Char) : Char :=
  if 65 ≤ c.toNat && c.toNat ≤ 90 then Char.ofNat (c.toNat + 32) else c

/-- ASCII lowercase fold of a string, as Rust's `str::to_ascii_lowercase`. -/
def asciiLower (s : String) : String :=
  ⟨s.data.map asciiLowerChar⟩

/-- A single literal character. -/
def RE.chr (c : Char) : RE := .cls (fun x => x == c)

/-- A single literal character, ASCII case-insensitively (regex `i` flag). -/
def RE.ichr (c : Char) : RE := .cls (fun x => asciiLowerChar x == asciiLowerChar c)

/-- A literal string. -/
def RE.str (s : String) : RE :=
  s.data.foldr (fun c r => .cat (RE.chr c) r) .eps

/-- A literal string, ASCII case-insensitively (regex `i` flag). -/
def RE.istr (s : String) : RE :=
  s.data.foldr (fun c r => .cat (RE.ichr c) r) .eps

/-- Regex `r?`. -/
def RE.opt (r : RE) : RE := .alt r .eps

/-- Regex `r+`. -/
def RE.plus (r : RE) : RE := .cat r (.star r)

/-- Regex `r{n}`: exactly `n` repetitions. -/
def RE.rep : Nat → RE → RE
  | 0, _ => .eps
  | n + 1, r => .cat r (RE.rep n r)

/-- Regex `r{0,n}`: at most `n` repetitions. -/
def RE.repMax : Nat → RE → RE
  | 0, _ => .eps
  | n + 1, r => .alt .eps (.cat r (RE.repMax n r))

/-- Regex `r{lo,hi}`. -/
def RE.repRange (lo hi : Nat) (r : RE) : RE :=
  .cat (RE.rep lo r) (RE.repMax (hi - lo) r)

/-- Concatenation of a list of regexes. -/
def RE.cats : List RE → RE
  | [] => .eps
  | [r] => r
  | r :: rest => .cat r (RE.cats rest)

/-- Alternation of a list of regexes. -/
def RE.alts : List RE → RE
  | [] => .emp
  | [r] => r
  | r :: rest => .alt r (RE.alts rest)

/-! ## Character classes of `IRI_REGEX_SRC` (transliterated from `_iri.rs`) -/

def inRange (lo hi n : Nat) : Bool := lo ≤ n && n ≤ hi

def isAsciiAlpha (c : Char) : Bool :=
  inRange 65 90 c.toNat || inRange 97 122 c.toNat

def isAsciiDigit (c : Char) : Bool := inRange 48 57 c.toNat

/-- Regex class `[0-9a-fA-F]`. -/
def hexDig (c : Char) : Bool :=
  isAsciiDigit c || inRange 97 102 c.toNat || inRange 65 70 c.toNat

/-- The `ucschar` Unicode ranges, appearing verbatim inside every large
bracket class of `IRI_REGEX_SRC`. -/
def ucschar (c : Char) : Bool :=
  let n := c.toNat
  inRange 0xA0 0xD7FF n || inRange 0xF900 0xFDCF n || inRange 0xFDF0 0xFFEF n ||
  inRange 0x10000 0x1FFFD n || inRange 0x20000 0x2FFFD n || inRange 0x30000 0x3FFFD n ||
  inRange 0x40000 0x4FFFD n || inRange 0x50000 0x5FFFD n || inRange 0x60000 0x6FFFD n ||
  inRange 0x70000 0x7FFFD n || inRange 0x80000 0x8FFFD n || inRange 0x90000 0x9FFFD n ||
  inRange 0xA0000 0xAFFFD n || inRange 0xB0000 0xBFFFD n || inRange 0xC0000 0xCFFFD n ||
  inRange 0xD0000 0xDFFFD n || inRange 0xE1000 0xEFFFD n

/-- The `iprivate` Unicode ranges, extra characters of the query class. -/
def iprivate (c : Char) : Bool :=
  let n := c.toNat
  inRange 0xE000 0xF8FF n || inRange 0xF0000 0xFFFFD n || inRange 0x100000 0x10FFFD n

/-- The punctuation `!$&'()*+,;=` present in every large bracket class. -/
def subDelims (c : Char) : Bool :=
  c == '!' || c == '$' || c == '&' || c == Char.ofNat 39 || c == '(' || c == ')' ||
  c == '*' || c == '+' || c == ',' || c == ';' || c == '='

/-- Class `[-A-Za-z0-9._~(ucschar)...]` common to the big classes. -/
def iunreserved (c : Char) : Bool :=
  c == '-' || isAsciiAlpha c || isAsciiDigit c || c == '.' || c == '_' || c == '~' ||
  ucschar c

/-- The `iuserinfo` bracket class (iunreserved, sub-delims and `:`). -/
def iuserinfoChar (c : Char) : Bool := iunreserved c || subDelims c || c == ':'

/-- The `ireg_name` bracket class (iunreserved and sub-delims, no `:`). -/
def iregNameChar (c : Char) : Bool := iunreserved c || subDelims c

/-- The path-segment bracket class (`ipchar`: iunreserved, sub-delims, `:`, `@`). -/
def ipathChar (c : Char) : Bool := iunreserved c || subDelims c || c == ':' || c == '@'

/-- The `iquery` bracket class (`ipchar` plus iprivate, `/` and `?`). -/
def iqueryChar (c : Char) : Bool := ipathChar c || iprivate c || c == '/' || c == '?'

/-- The `ifragment` bracket class (`ipchar` plus `/` and `?`). -/
def ifragmentChar (c : Char) : Bool := ipathChar c || c == '/' || c == '?'

/-- The `ipvfuture` trailing bracket class `[-A-Za-z0-9._~!$&'()*+,;=:]`. -/
def ipvFutureChar (c : Char) : Bool :=
  c == '-' || isAsciiAlpha c || isAsciiDigit c || c == '.' || c == '_' || c == '~' ||
  subDelims c || c == ':'

/-- Scheme leading class `[A-Za-z]`. -/
def schemeFirst (c : Char) : Bool := isAsciiAlpha c

/-- Scheme tail class `[-A-Za-z0-9+.]`. -/
def schemeRest (c : Char) : Bool :=
  c == '-' || isAsciiAlpha c || isAsciiDigit c || c == '+' || c == '.'

/-! ## The IRI regex `IRI_REGEX_SRC`, transliterated alternative by alternative -/

/-- `%[0-9a-fA-F]{2}`. -/
def pctEncoded : RE := .cat (RE.chr '%') (RE.rep 2 (.cls hexDig))

/-- `[A-Za-z][-A-Za-z0-9+.]*` (the captured scheme). -/
def scheme : RE := .cat (.cls schemeFirst) (.star (.cls schemeRest))

/-- `(?:(iuserinfo char)|%XX)*@` without the `@`: the userinfo body. -/
def iuserinfo : RE := .star (.alt (.cls iuserinfoChar) pctEncoded)

/-- `(?:[0-9]|(?:[1-9][0-9])|(?:1[0-9]{2})|(?:2[0-4][0-9])|(?:25[0-5]))`. -/
def decOctet : RE := RE.alts [
  .cls isAsciiDigit,
  .cat (.cls (fun c => inRange 49 57 c.toNat)) (.cls isAsciiDigit),
  .cat (RE.chr '1') (RE.rep 2 (.cls isAsciiDigit)),
  RE.cats [RE.chr '2', .cls (fun c => inRange 48 52 c.toNat), .cls isAsciiDigit],
  .cat (RE.str "25") (.cls (fun c => inRange 48 53 c.toNat))]

/-- `dec-octet (\.dec-octet){3}`. -/
def ipv4address : RE := .cat decOctet (RE.rep 3 (.cat (RE.chr '.') decOctet))

/-- `[0-9a-fA-F]{1,4}`. -/
def h16 : RE := RE.repRange 1 4 (.cls hexDig)

/-- `[0-9a-fA-F]{1,4}:`. -/
def h16colon : RE := .cat h16 (RE.chr ':')

/-- `(?:h16:h16|ipv4address)`. -/
def ls32 : RE := .alt (RE.cats [h16, RE.chr ':', h16]) ipv4address

/-- The optional prefix `(?:(?:[0-9a-fA-F]{1,4}:){0,k}:[0-9a-fA-F]{1,4})?`
exactly as written in the source (note the lone `:` before the final
`h16`, which deviates from RFC3987). -/
def ipv6pre (k : Nat) : RE :=
  RE.opt (RE.cats [RE.repMax k h16colon, RE.chr ':', h16])

/-- The nine-way `ipv6address` alternation, exactly as in `IRI_REGEX_SRC`. -/
def ipv6address : RE := RE.alts [
  .cat (RE.rep 6 h16colon) ls32,
  RE.cats [RE.str "::", RE.rep 5 h16colon, ls32],
  RE.cats [RE.opt h16, RE.str "::", RE.rep 4 h16colon, ls32],
  RE.cats [ipv6pre 1, RE.str "::", RE.rep 3 h16colon, ls32],
  RE.cats [ipv6pre 2, RE.str "::", RE.rep 2 h16colon, ls32],
  RE.cats [ipv6pre 3, RE.str "::", h16colon, ls32],
  RE.cats [ipv6pre 4, RE.str "::", ls32],
  RE.cats [ipv6pre 5, RE.str "::", h16],
  RE.cats [ipv6pre 6, RE.str "::"]]

/-- `v[0-9a-fA-F]+\.[-A-Za-z0-9._~!$&'()*+,;=:]+`. -/
def ipvFuture : RE :=
  RE.cats [RE.chr 'v', RE.plus (.cls hexDig), RE.chr '.', RE.plus (.cls ipvFutureChar)]

/-- `\[(?:ipv6address|ipvfuture)\]`. -/
def ipLiteral : RE :=
  RE.cats [RE.chr '[', .alt ipv6address ipvFuture, RE.chr ']']

/-- `(?:(ireg name char)|%XX)*`. -/
def iregName : RE := .star (.alt (.cls iregNameChar) pctEncoded)

/-- `ip_literal | ipv4address | ireg_name`. -/
def ihost : RE := RE.alts [ipLiteral, ipv4address, iregName]

/-- The captured `iauthority`: optional `userinfo@`, host, optional `:port`. -/
def iauthority : RE :=
  RE.cats [RE.opt (.cat iuserinfo (RE.chr '@')), ihost,
    RE.opt (.cat (RE.chr ':') (.star (.cls isAsciiDigit)))]

/-- A path segment `(?:(ipchar)|%XX)*`. -/
def isegment : RE := .star (.alt (.cls ipathChar) pctEncoded)

/-- `(?:/segment)*` (the captured `ipath_abempty`). -/
def ipathAbempty : RE := .star (.cat (RE.chr '/') isegment)

/-- `/(?:segment(?:/segment)*)?` (the captured `ipath_absolute`). -/
def ipathAbsolute : RE :=
  .cat (RE.chr '/')
    (RE.opt (.cat isegment (.star (.cat (RE.chr '/') isegment))))

/-- `(?:(ipchar)|%XX)+(?:/segment)*` (the captured `ipath_rootless`). -/
def ipathRootless : RE :=
  .cat (RE.plus (.alt (.cls ipathChar) pctEncoded))
    (.star (.cat (RE.chr '/') isegment))

/-- `\?(?:(iquery char)|%XX)*`. -/
def iqueryPart : RE :=
  .cat (RE.chr '?') (.star (.alt (.cls iqueryChar) pctEncoded))

/-- `#(?:(ifragment char)|%XX)*`. -/
def ifragmentPart : RE :=
  .cat (RE.chr '#') (.star (.alt (.cls ifragmentChar) pctEncoded))

/-- The hierarchical part: `//authority path-abempty | path-absolute |
path-rootless`, optional as a whole (`ipath_empty`). -/
def ihierPart : RE :=
  RE.opt (RE.alts [
    RE.cats [RE.str "//", iauthority, ipathAbempty],
    ipathAbsolute,
    ipathRootless])

/-- The anchored `IRI_REGEX_SRC` of `_iri.rs`:
`^scheme:(ihier-part)?(\?query)?(#fragment)?$`. -/
def IRI_REGEX : RE :=
  RE.cats [scheme, RE.chr ':', ihierPart, RE.opt iqueryPart, RE.opt ifragmentPart]

/-- RFC3987 prefix `[ *k( h16 ":" ) h16 ]` as the spec's reference grammar
has it (RFC3986 collected ABNF, reused by RFC3987): up to `k` `h16 ":"`
groups followed by one `h16`, all optional — with no extra colon. -/
def ipv6preRfc (k : Nat) : RE :=
  RE.opt (.cat (RE.repMax k h16colon) h16)

/-- The `IPv6address` production of RFC3986/RFC3987, which the spec claims
the validator implements.  It differs from the source's `ipv6address` only
in the optional prefixes before `::`. -/
def ipv6addressRfc : RE := RE.alts [
  .cat (RE.rep 6 h16colon) ls32,
  RE.cats [RE.str "::", RE.rep 5 h16colon, ls32],
  RE.cats [RE.opt h16, RE.str "::", RE.rep 4 h16colon, ls32],
  RE.cats [ipv6preRfc 1, RE.str "::", RE.rep 3 h16colon, ls32],
  RE.cats [ipv6preRfc 2, RE.str "::", RE.rep 2 h16colon, ls32],
  RE.cats [ipv6preRfc 3, RE.str "::", h16colon, ls32],
  RE.cats [ipv6preRfc 4, RE.str "::", ls32],
  RE.cats [ipv6preRfc 5, RE.str "::", h16],
  RE.cats [ipv6preRfc 6, RE.str "::"]]

/-! ## The language-tag regex `TAG_REGEX_SRC` (from `_language_tag.rs`)

The source regex carries the flags `(?xi-u)`: ASCII-only case-insensitive
matching, so every class and literal below folds ASCII case. -/

/-- Class `[A-Z0-9]` under the `i` flag: ASCII letters and digits. -/
def alphanum (c : Char) : Bool := isAsciiAlpha c || isAsciiDigit c

/-- Extension singleton class `[0-9A-WY-Z]` under the `i` flag:
a digit or a letter other than `x`/`X`. -/
def singletonChar (c : Char) : Bool :=
  isAsciiDigit c || inRange 65 87 c.toNat || inRange 89 90 c.toNat ||
  inRange 97 119 c.toNat || inRange 121 122 c.toNat

/-- The literal `X` under the `i` flag. -/
def xChar (c : Char) : Bool := c == 'x' || c == 'X'

/-- `[A-Z]` under the `i` flag. -/
def tagAlpha : RE := .cls isAsciiAlpha

/-- `(?:[A-Z]{2,3}(?:(?:-[A-Z]{3}){0,3})) | [A-Z]{4,8}`: language with
up to three extlang subtags, or a 4–8 letter language. -/
def tagLanguage : RE :=
  .alt (.cat (RE.repRange 2 3 tagAlpha)
             (RE.repMax 3 (.cat (RE.chr '-') (RE.rep 3 tagAlpha))))
       (RE.repRange 4 8 tagAlpha)

/-- `(?:-[A-Z]{4})?`: the optional script subtag. -/
def tagScript : RE := RE.opt (.cat (RE.chr '-') (RE.rep 4 tagAlpha))

/-- `(?:-(?:[A-Z]{2}|[0-9]{3}))?`: the optional region subtag. -/
def tagRegion : RE :=
  RE.opt (.cat (RE.chr '-')
    (.alt (RE.rep 2 tagAlpha) (RE.rep 3 (.cls isAsciiDigit))))

/-- `(?:-(?:[A-Z0-9]{5,8}|[0-9][A-Z0-9]{3}))*`: variant subtags. -/
def tagVariant : RE :=
  .star (.cat (RE.chr '-')
    (.alt (RE.repRange 5 8 (.cls alphanum))
          (.cat (.cls isAsciiDigit) (RE.rep 3 (.cls alphanum)))))

/-- `(?:-[0-9A-WY-Z](?:-[A-Z0-9]{2,8})+)*`: extension sequences. -/
def tagExtension : RE :=
  .star (.cat (RE.chr '-')
    (.cat (.cls singletonChar)
          (RE.plus (.cat (RE.chr '-') (RE.repRange 2 8 (.cls alphanum))))))

/-- `X(?:-[A-Z0-9]{1,8})+`: a private-use tag body. -/
def tagPrivateUse : RE :=
  .cat (.cls xChar)
       (RE.plus (.cat (RE.chr '-') (RE.repRange 1 8 (.cls alphanum))))

/-- The regular `langtag` alternative of the source regex. -/
def langtagForm : RE :=
  RE.cats [tagLanguage, tagScript, tagRegion, tagVariant, tagExtension,
    RE.opt (.cat (RE.chr '-') tagPrivateUse)]

/-- The irregular grandfathered tags enumerated literally in the source
regex alternation (`en-GB-oed|i-ami|...|sgn-CH-DE`), in source order. -/
def irregularGrandfathered : List String :=
  ["en-GB-oed", "i-ami", "i-bnn", "i-default", "i-enochian", "i-hak",
   "i-klingon", "i-lux", "i-mingo", "i-navajo", "i-pwn", "i-tao", "i-tay",
   "i-tsu", "sgn-BE-FR", "sgn-BE-NL", "sgn-CH-DE"]

/-- The grandfathered alternative: the enumerated literals, matched
case-insensitively (the regex `i` flag). -/
def tagGrandfathered : RE := RE.alts (irregularGrandfathered.map RE.istr)

/-- The anchored `TAG_REGEX_SRC` of `_language_tag.rs`:
`^(langtag|privateuse|grandfathered)$`. -/
def TAG_REGEX : RE := RE.alts [langtagForm, tagPrivateUse, tagGrandfathered]

/-! ## The `Iri` and `LangTag` wrapper types (from `_iri.rs` / `_language_tag.rs`) -/

/-- Wrapper around text claimed to satisfy RFC3987 (`struct Iri<'a>(Cow<'a, str>)`;
the `Cow` borrow/own distinction is erased, keeping the text). -/
structure Iri where
  txt : String
deriving DecidableEq

/-- `Iri::new`: `IRI_REGEX.is_match(&inner).then_some(Iri(inner))`. -/
def Iri.new (txt : String) : Option Iri :=
  if RE.matches IRI_REGEX txt then some ⟨txt⟩ else none

/-- `Iri::new_unchecked`: wraps the text with no check. -/
def Iri.new_unchecked (txt : String) : Iri := ⟨txt⟩

/-- `Iri::unwrap`: return the inner text. -/
def Iri.unwrap (i : Iri) : String := i.txt

/-- `Iri::unchecked_map`: apply `f` to the inner text with no check. -/
def Iri.unchecked_map (i : Iri) (f : String → String) : Iri := ⟨f i.txt⟩

/-- `AsRef<str> for Iri`. -/
def Iri.as_ref (i : Iri) : String := i.txt

/-- `Iri::borrowed`: `Iri::new_unchecked(self.as_ref())`. -/
def Iri.borrowed (i : Iri) : Iri := Iri.new_unchecked i.as_ref

/-- `Display for Iri`: wraps the text in angle brackets. -/
def Iri.display (i : Iri) : String := "<" ++ i.txt ++ ">"

/-- The asserted condition of `IriValidation::debug_assert_is_valid`
(`debug_assert!(IRI_REGEX.is_match(self.as_ref()))` in the validation crate). -/
def Iri.debug_assert_is_valid (i : Iri) : Bool := RE.matches IRI_REGEX i.txt

/-- Wrapper around text claimed to satisfy BCP47
(`struct LangTag<'a>(Cow<'a, str>)`). -/
structure LangTag where
  txt : String
deriving DecidableEq

/-- `LangTag::new`: `TAG_REGEX.is_match(&inner).then_some(LangTag(inner))`. -/
def LangTag.new (txt : String) : Option LangTag :=
  if RE.matches TAG_REGEX txt then some ⟨txt⟩ else none

/-- `LangTag::new_unchecked`: wraps the text with no check. -/
def LangTag.new_unchecked (txt : String) : LangTag := ⟨txt⟩

/-- `LangTag::unwrap`: return the inner text. -/
def LangTag.unwrap (t : LangTag) : String := t.txt

/-- `LangTag::unchecked_map`: apply `f` to the inner text with no check. -/
def LangTag.unchecked_map (t : LangTag) (f : String → String) : LangTag := ⟨f t.txt⟩

/-- `AsRef<str> for LangTag`. -/
def LangTag.as_ref (t : LangTag) : String := t.txt

/-- `LangTag::borrowed`: `LangTag::new_unchecked(self.0.as_ref())`. -/
def LangTag.borrowed (t : LangTag) : LangTag := LangTag.new_unchecked t.txt

/-- The asserted condition of `LangTagValidation::debug_assert_is_valid`. -/
def LangTag.debug_assert_is_valid (t : LangTag) : Bool := RE.matches TAG_REGEX t.txt

/-! ## Comparison operations of `LangTag` (from `_language_tag.rs`) -/

/-- Lexicographic comparison of character lists by code point.  UTF-8 byte
order coincides with code-point order, so this models Rust's `str::cmp`. -/
def charListCompare : List Char → List Char → Ordering
  | [], [] => .eq
  | [], _ :: _ => .lt
  | _ :: _, [] => .gt
  | a :: as, b :: bs =>
      if a.toNat < b.toNat then .lt
      else if b.toNat < a.toNat then .gt
      else charListCompare as bs

/-- Rust `str::cmp`. -/
def strCompare (a b : String) : Ordering := charListCompare a.data b.data

/-- Rust `str::eq_ignore_ascii_case`. -/
def eqIgnoreAsciiCase (a b : String) : Bool := asciiLower a == asciiLower b

/-- `PartialEq for LangTag`: `self.0.as_ref().eq_ignore_ascii_case(other.0.as_ref())`. -/
def LangTag.beq (a b : LangTag) : Bool := eqIgnoreAsciiCase a.txt b.txt

/-- The hand-written `PartialOrd::partial_cmp` of `LangTag`: compare the
ASCII-lowercased texts. -/
def LangTag.pcmp (a b : LangTag) : Ordering :=
  strCompare (asciiLower a.txt) (asciiLower b.txt)

/-- The `Ord` implementation generated by `#[derive(Ord)]` on `LangTag`:
field-wise comparison of the inner `Cow<str>`, i.e. case-sensitive text
comparison. -/
def LangTag.cmp_derived (a b : LangTag) : Ordering := strCompare a.txt b.txt

/-- `Hash for LangTag`, parameterized by the hasher: the lowercased text is
fed to the hasher (`self.0.as_ref().to_ascii_lowercase().hash(state)`). -/
def LangTag.hashVia (h : String → Nat) (t : LangTag) : Nat := h (asciiLower t.txt)

/-- `Display for LangTag`: the stored text, unchanged. -/
def LangTag.display (t : LangTag) : String := t.txt

/-! ## Literals (from `_literal.rs`) -/

/-- The base direction of a directional language-tagged string. -/
inductive BaseDir where
  | ltr : BaseDir
  | rtl : BaseDir
deriving DecidableEq

/-- An RDF literal: `Typed(lexical, datatype)` or
`LanguageString(lexical, tag, base_direction)`. -/
inductive Literal where
  | typed (lex : String) (datatype : Iri)
  | languageString (lex : String) (tag : LangTag) (dir : Option BaseDir)
deriving DecidableEq

/-- `static RDF_LANG_STRING` of `_literal.rs`. -/
def RDF_LANG_STRING : String :=
  "http://www.w3.org/1999/02/22-rdf-syntax-ns#langString"

/-- `static RDF_DIR_LANG_STRING` of `_literal.rs`. -/
def RDF_DIR_LANG_STRING : String :=
  "http://www.w3.org/1999/02/22-rdf-syntax-ns#dirLangString"

/-- `Literal::borrowed`: re-borrow every component. -/
def Literal.borrowed : Literal → Literal
  | .typed lex iri => .typed lex iri.borrowed
  | .languageString lex tag dir => .languageString lex tag.borrowed dir

/-- `Literal::lexical_form`. -/
def Literal.lexical_form : Literal → String
  | .typed lex _ => lex
  | .languageString lex _ _ => lex

/-- `Literal::datatype_iri`: the explicit datatype for `Typed`, the
`rdf:langString` IRI for plain language strings, the `rdf:dirLangString`
IRI when a base direction is present. -/
def Literal.datatype_iri : Literal → Iri
  | .typed _ iri => iri.borrowed
  | .languageString _ _ none => Iri.new_unchecked RDF_LANG_STRING
  | .languageString _ _ (some _) => Iri.new_unchecked RDF_DIR_LANG_STRING

/-- `Literal::language_tag`. -/
def Literal.language_tag : Literal → Option LangTag
  | .typed _ _ => none
  | .languageString _ tag _ => some tag.borrowed

/-- `Literal::base_direction`. -/
def Literal.base_direction : Literal → Option BaseDir
  | .typed _ _ => none
  | .languageString _ _ (some dir) => some dir
  | .languageString _ _ none => none

/-! ## Term roles, proxies and statements
(from `_subject.rs`, `_object.rs`, `_graph_name.rs`, `_triple.rs`, `_quad.rs`)

The trait-based model is instantiated at its canonical implementation:
each proxy type implements its own role trait, and `Triple`/`Quad` store
one proxy per role.  Blank nodes carry their local identifier text. -/

/-- `SubjectProxy`: an IRI or a blank node. -/
inductive SubjectProxy where
  | iri (i : Iri)
  | blankNode (id : String)
deriving DecidableEq

/-- `SubjectKind`. -/
inductive SubjectKind where
  | iri : SubjectKind
  | blankNode : SubjectKind
deriving DecidableEq

/-- `GraphNameProxy`: an IRI or a blank node. -/
inductive GraphNameProxy where
  | iri (i : Iri)
  | blankNode (id : String)
deriving DecidableEq

/-- `GraphNameKind`. -/
inductive GraphNameKind where
  | iri : GraphNameKind
  | blankNode : GraphNameKind
deriving DecidableEq

/-- `ObjectKind`. -/
inductive ObjectKind where
  | iri : ObjectKind
  | blankNode : ObjectKind
  | literal : ObjectKind
  | triple : ObjectKind
deriving DecidableEq

mutual
/-- `ObjectProxy`: an IRI, a blank node, a literal, or a nested triple term. -/
inductive ObjectProxy where
  | iri (i : Iri)
  | blankNode (id : String)
  | literal (l : Literal)
  | triple (t : Triple)

/-- A triple: subject, predicate and object (`Predicate` is always an `Iri`). -/
inductive Triple where
  | mk (subject : SubjectProxy) (predicate : Iri) (object : ObjectProxy)
end

/-- The subject of a triple. -/
def Triple.subject : Triple → SubjectProxy
  | .mk s _ _ => s

/-- The predicate of a triple. -/
def Triple.predicate : Triple → Iri
  | .mk _ p _ => p

/-- The object of a triple. -/
def Triple.object : Triple → ObjectProxy
  | .mk _ _ o => o

/-- `Subject::subject_kind` (derived from the proxy decomposition). -/
def SubjectProxy.subject_kind : SubjectProxy → SubjectKind
  | .iri _ => .iri
  | .blankNode _ => .blankNode

/-- `Subject::ground`: an IRI is ground, a blank node is not. -/
def SubjectProxy.ground (s : SubjectProxy) : Bool :=
  match s.subject_kind with
  | .iri => true
  | .blankNode => false

/-- `GraphName::graph_name_kind`. -/
def GraphNameProxy.graph_name_kind : GraphNameProxy → GraphNameKind
  | .iri _ => .iri
  | .blankNode _ => .blankNode

/-- `GraphName::ground`: an IRI is ground, a blank node is not. -/
def GraphNameProxy.ground (g : GraphNameProxy) : Bool :=
  match g.graph_name_kind with
  | .iri => true
  | .blankNode => false

/-- `Object::object_kind`. -/
def ObjectProxy.object_kind : ObjectProxy → ObjectKind
  | .iri _ => .iri
  | .blankNode _ => .blankNode
  | .literal _ => .literal
  | .triple _ => .triple

mutual
/-- `Object::ground`: IRIs and literals are ground, blank nodes are not,
a triple term is ground iff its nested triple is. -/
def ObjectProxy.ground : ObjectProxy → Bool
  | .iri _ => true
  | .blankNode _ => false
  | .literal _ => true
  | .triple t => Triple.ground t

/-- `Triple::ground`: `self.subject().ground() && self.object().ground()`. -/
def Triple.ground : Triple → Bool
  | .mk s _ o => SubjectProxy.ground s && ObjectProxy.ground o
end

mutual
/-- Whether an object contains a blank node anywhere, recursing through
nested triple terms (the groundness notion of the spec, stated negatively). -/
def ObjectProxy.hasBlankNode : ObjectProxy → Bool
  | .iri _ => false
  | .blankNode _ => true
  | .literal _ => false
  | .triple t => Triple.hasBlankNode t

/-- Whether a triple contains a blank node anywhere (the predicate, always
an IRI, cannot). -/
def Triple.hasBlankNode : Triple → Bool
  | .mk s _ o =>
      (match s with
       | .blankNode _ => true
       | .iri _ => false) || ObjectProxy.hasBlankNode o
end

/-- `Subject for SubjectProxy`: decompose (re-borrowing the components). -/
def SubjectProxy.as_subject_proxy : SubjectProxy → SubjectProxy
  | .iri i => .iri i.borrowed
  | .blankNode id => .blankNode id

/-- `GraphName for GraphNameProxy`: decompose (re-borrowing the components). -/
def GraphNameProxy.as_graph_name_proxy : GraphNameProxy → GraphNameProxy
  | .iri i => .iri i.borrowed
  | .blankNode id => .blankNode id

/-- `Object for ObjectProxy`: decompose (re-borrowing the components;
a nested triple is returned by reference, i.e. unchanged). -/
def ObjectProxy.as_object_proxy : ObjectProxy → ObjectProxy
  | .iri i => .iri i.borrowed
  | .blankNode id => .blankNode id
  | .literal l => .literal l.borrowed
  | .triple t => .triple t

/-- A quad: a triple plus an optional graph name; `none` denotes the
default graph (from `_quad.rs`). -/
structure Quad where
  subject : SubjectProxy
  predicate : Iri
  object : ObjectProxy
  graph_name : Option GraphNameProxy

/-- `Quad::ground`: subject and object ground, and the graph name, if any,
ground (`self.graph_name().map(|n| n.ground()).unwrap_or(true)`). -/
def Quad.ground (q : Quad) : Bool :=
  q.subject.ground && q.object.ground &&
    ((q.graph_name.map GraphNameProxy.ground).getD true)

/-! ## Helper lemmas -/

theorem RE.lang_alts_iff {l : List RE} {u : List Char} :
    RE.Lang (RE.alts l) u ↔ ∃ r ∈ l, RE.Lang r u := by
  induction l with
  | nil => simp [RE.alts, RE.lang_emp_iff]
  | cons r rest ih =>
      cases rest with
      | nil => simp [RE.alts]
      | cons r2 rest2 =>
          rw [show RE.alts (r :: r2 :: rest2) = .alt r (RE.alts (r2 :: rest2)) from rfl,
            RE.lang_alt_iff, ih]
          simp

theorem RE.lang_istr_aux {l u : List Char} :
    RE.Lang (l.foldr (fun c r => .cat (RE.ichr c) r) .eps) u ↔
      u.map asciiLowerChar = l.map asciiLowerChar := by
  induction l generalizing u with
  | nil =>
      simp [RE.lang_eps_iff, List.map_eq_nil_iff]
  | cons c cs ih =>
      simp only [List.foldr, List.map_cons]
      rw [RE.lang_cat_iff]
      constructor
      · rintro ⟨u1, v, rfl, h1, hv⟩
        rcases RE.lang_cls_iff.mp h1 with ⟨d, rfl, hd⟩
        have hd' : asciiLowerChar d = asciiLowerChar c := by
          simpa [RE.ichr] using hd
        simp [hd', ih.mp hv]
      · intro h
        cases u with
        | nil => simp at h
        | cons d v =>
            simp only [List.map_cons, List.cons.injEq] at h
            refine ⟨[d], v, rfl, RE.lang_cls_iff.mpr ⟨d, rfl, ?_⟩, ih.mpr h.2⟩
            simp [RE.ichr, h.1]

theorem RE.lang_istr_iff {s : String} {u : List Char} :
    RE.Lang (RE.istr s) u ↔ u.map asciiLowerChar = s.data.map asciiLowerChar :=
  RE.lang_istr_aux

theorem eqIgnoreAsciiCase_iff {a b : String} :
    eqIgnoreAsciiCase a b = true ↔
      a.data.map asciiLowerChar = b.data.map asciiLowerChar := by
  rw [eqIgnoreAsciiCase, beq_iff_eq, asciiLower, asciiLower]
  exact ⟨fun h => by injection h, fun h => by rw [h]⟩

theorem iri_new_isSome_iff {s : String} :
    (Iri.new s).isSome = true ↔ RE.Lang IRI_REGEX s.data := by
  rw [Iri.new]
  by_cases h : RE.matches IRI_REGEX s = true
  · rw [if_pos h]
    simp only [Option.isSome_some, true_iff]
    exact RE.matches_iff.mp h
  · rw [if_neg h]
    simp only [Option.isSome_none, Bool.false_eq_true, false_iff]
    exact fun hl => h (RE.matches_iff.mpr hl)

theorem langtag_new_isSome_iff {s : String} :
    (LangTag.new s).isSome = true ↔ RE.Lang TAG_REGEX s.data := by
  rw [LangTag.new]
  by_cases h : RE.matches TAG_REGEX s = true
  · rw [if_pos h]
    simp only [Option.isSome_some, true_iff]
    exact RE.matches_iff.mp h
  · rw [if_neg h]
    simp only [Option.isSome_none, Bool.false_eq_true, false_iff]
    exact fun hl => h (RE.matches_iff.mpr hl)

theorem iri_borrowed_eq (i : Iri) : i.borrowed = i := rfl

theorem langtag_borrowed_eq (t : LangTag) : t.borrowed = t := rfl

theorem literal_borrowed_eq (l : Literal) : l.borrowed = l := by
  cases l <;> rfl

mutual
theorem object_ground_eq_not_hasBlankNode :
    ∀ o : ObjectProxy, o.ground = !o.hasBlankNode
  | .iri _ => rfl
  | .blankNode _ => rfl
  | .literal _ => rfl
  | .triple t => by
      simp only [ObjectProxy.ground, ObjectProxy.hasBlankNode]
      exact triple_ground_eq_not_hasBlankNode t

theorem triple_ground_eq_not_hasBlankNode :
    ∀ t : Triple, t.ground = !t.hasBlankNode
  | .mk s p o => by
      simp only [Triple.ground, Triple.hasBlankNode,
        object_ground_eq_not_hasBlankNode o]
      cases s <;>
        simp [SubjectProxy.ground, SubjectProxy.subject_kind]
end

/-! ## Claim theorems -/

/-- C1: the spec says `Iri::try_parse` succeeds exactly on the RFC3987
absolute-IRI grammar, and the listed examples do behave as claimed.  But the
source regex deviates from RFC3987 in the `IPv6address` production: its
optional prefixes carry a stray `:` before the final `h16`
(`(?:(?:h16:){0,k}:h16)?` instead of RFC's `(?:(?:h16:){0,k}h16)?`), so the
code rejects the RFC-valid host `[1::]` and accepts the RFC-invalid host
`[:1::2]`.  This theorem records the acceptance condition (the code accepts
exactly the language of its regex), the claimed examples, and the two
divergent inputs, compared against the RFC3987 `IPv6address` production
`ipv6addressRfc`. -/
theorem iri_new_rfc3987_ipv6_divergence :
    (∀ s : String, (Iri.new s).isSome = true ↔ RE.Lang IRI_REGEX s.data) ∧
    (Iri.new "http://example.org/").isSome = true ∧
    (Iri.new "tag:abc/def").isSome = true ∧
    (Iri.new "http://[::]").isSome = true ∧
    Iri.new "foo" = none ∧
    Iri.new "//example.org" = none ∧
    Iri.new "http://a/[" = none ∧
    Iri.new "http://a/ " = none ∧
    Iri.new "http://[1::]" = none ∧
    RE.matches ipv6addressRfc "1::" = true ∧
    (Iri.new "http://[:1::2]").isSome = true ∧
    RE.matches ipv6addressRfc ":1::2" = false := by
  refine ⟨fun s => iri_new_isSome_iff, ?_, ?_, ?_, ?_, ?_, ?_, ?_, ?_, ?_, ?_, ?_⟩ <;>
    decide

/-- C2 counterexample: the claim speaks of "the 16 enumerated irregular
grandfathered tags", but the source regex enumerates seventeen of them. -/
theorem irregularGrandfathered_count_is_seventeen :
    irregularGrandfathered.length = 17 ∧ irregularGrandfathered.length ≠ 16 := by
  decide

/-- C2 (amended: seventeen, not sixteen, enumerated irregular grandfathered
tags): `LangTag::try_parse` succeeds exactly when the text matches,
case-insensitively, the regular BCP47 langtag form, or a standalone
private-use tag, or one of the seventeen enumerated irregular grandfathered
tags; "en-GB", "zh-guoyu", "i-klingon" and "x-whatever" are accepted while
"12", "a" and "ab-ab-abc" are rejected. -/
theorem langtag_new_accepts_bcp47 :
    (∀ s : String, (LangTag.new s).isSome = true ↔
      (RE.Lang langtagForm s.data ∨ RE.Lang tagPrivateUse s.data ∨
        ∃ t ∈ irregularGrandfathered, eqIgnoreAsciiCase s t = true)) ∧
    irregularGrandfathered.length = 17 ∧
    (LangTag.new "en-GB").isSome = true ∧
    (LangTag.new "zh-guoyu").isSome = true ∧
    (LangTag.new "i-klingon").isSome = true ∧
    (LangTag.new "x-whatever").isSome = true ∧
    LangTag.new "12" = none ∧
    LangTag.new "a" = none ∧
    LangTag.new "ab-ab-abc" = none := by
  refine ⟨?_, by decide, ?_, ?_, ?_, ?_, ?_, ?_, ?_⟩
  · intro s
    rw [langtag_new_isSome_iff,
      show TAG_REGEX = .alt langtagForm (.alt tagPrivateUse tagGrandfathered) from rfl,
      RE.lang_alt_iff, RE.lang_alt_iff]
    refine or_congr Iff.rfl (or_congr Iff.rfl ?_)
    rw [tagGrandfathered, RE.lang_alts_iff]
    constructor
    · rintro ⟨r, hr, hl⟩
      rcases List.mem_map.mp hr with ⟨t, ht, rfl⟩
      exact ⟨t, ht, eqIgnoreAsciiCase_iff.mpr (RE.lang_istr_iff.mp hl)⟩
    · rintro ⟨t, ht, he⟩
      exact ⟨RE.istr t, List.mem_map.mpr ⟨t, ht, rfl⟩,
        RE.lang_istr_iff.mpr (eqIgnoreAsciiCase_iff.mp he)⟩
  all_goals decide

/-- C3: `LangTag` equality, the hand-written `PartialOrd` ordering and
hashing are ASCII-case-insensitive and `Display` preserves the text, as
claimed — but the `Ord` implementation comes from `#[derive(Ord)]` and
compares the raw text case-sensitively: `cmp("en-GB", "en-gb")` is `Less`,
not `Equal`, contradicting both the claim and Rust's requirement that `Ord`
be consistent with `PartialOrd`. -/
theorem langtag_case_insensitive_except_derived_ord :
    (∀ a b : LangTag, LangTag.beq a b = true ↔ asciiLower a.txt = asciiLower b.txt) ∧
    (∀ a b : LangTag, LangTag.pcmp a b = strCompare (asciiLower a.txt) (asciiLower b.txt)) ∧
    (∀ (h : String → Nat) (t : LangTag), LangTag.hashVia h t = h (asciiLower t.txt)) ∧
    (∀ t : LangTag, LangTag.display t = t.txt) ∧
    LangTag.beq ⟨"en-GB"⟩ ⟨"en-gb"⟩ = true ∧
    (∀ h : String → Nat, LangTag.hashVia h ⟨"en-GB"⟩ = LangTag.hashVia h ⟨"en-gb"⟩) ∧
    LangTag.pcmp ⟨"en-GB"⟩ ⟨"en-gb"⟩ = Ordering.eq ∧
    LangTag.cmp_derived ⟨"en-GB"⟩ ⟨"en-gb"⟩ = Ordering.lt := by
  refine ⟨?_, fun a b => rfl, fun h t => rfl, fun t => rfl, by decide, ?_, by decide,
    by decide⟩
  · intro a b
    rw [LangTag.beq, eqIgnoreAsciiCase, beq_iff_eq]
  · intro h
    exact congrArg h (by decide : asciiLower "en-GB" = asciiLower "en-gb")

/-- C4: a triple is ground iff its subject and object are (the predicate,
always an IRI, is excluded); IRIs and literals are ground, blank nodes are
not, a triple term is ground iff its nested triple is; consequently a triple
is ground exactly when it contains no blank node anywhere. -/
theorem triple_ground_characterization :
    (∀ t : Triple, t.ground = (t.subject.ground && t.object.ground)) ∧
    (∀ i, (SubjectProxy.iri i).ground = true) ∧
    (∀ id, (SubjectProxy.blankNode id).ground = false) ∧
    (∀ i, (ObjectProxy.iri i).ground = true) ∧
    (∀ l, (ObjectProxy.literal l).ground = true) ∧
    (∀ id, (ObjectProxy.blankNode id).ground = false) ∧
    (∀ t : Triple, (ObjectProxy.triple t).ground = t.ground) ∧
    (∀ id p o, Triple.ground (.mk (.blankNode id) p o) = false) ∧
    (∀ t : Triple, t.ground = !t.hasBlankNode) := by
  refine ⟨?_, fun i => rfl, fun id => rfl, fun i => rfl, fun l => rfl, fun id => rfl,
    ?_, ?_, triple_ground_eq_not_hasBlankNode⟩
  · intro t
    cases t with
    | mk s p o => simp [Triple.ground, Triple.subject, Triple.object]
  · intro t
    simp [ObjectProxy.ground]
  · intro id p o
    simp [Triple.ground, SubjectProxy.ground, SubjectProxy.subject_kind]

/-- C5: a quad is ground iff its subject and object are ground and its graph
name, when present, is ground; a graph name is ground iff it is an IRI; a
default-graph quad (no graph name) is ground whenever subject and object
are. -/
theorem quad_ground_characterization :
    (∀ q : Quad, q.ground =
      (q.subject.ground && q.object.ground && q.graph_name.all GraphNameProxy.ground)) ∧
    (∀ s p o g, Quad.ground ⟨s, p, o, some g⟩ = (s.ground && o.ground && g.ground)) ∧
    (∀ s p o, Quad.ground ⟨s, p, o, none⟩ = (s.ground && o.ground)) ∧
    (∀ i, (GraphNameProxy.iri i).ground = true) ∧
    (∀ id, (GraphNameProxy.blankNode id).ground = false) := by
  refine ⟨?_, ?_, ?_, fun i => rfl, fun id => rfl⟩
  · intro q
    cases q with
    | mk s p o g => cases g <;> simp [Quad.ground, Option.all]
  · intro s p o g
    simp [Quad.ground]
  · intro s p o
    simp [Quad.ground]

/-- C6: `datatype_iri` returns the explicit datatype of a typed literal; for
a language string it returns the `rdf:langString` IRI when there is no base
direction and the `rdf:dirLangString` IRI when there is one. -/
theorem literal_datatype_iri_cases :
    (∀ lex dt, (Literal.typed lex dt).datatype_iri = dt) ∧
    (∀ lex tag, (Literal.languageString lex tag none).datatype_iri =
      Iri.new_unchecked RDF_LANG_STRING) ∧
    (∀ lex tag d, (Literal.languageString lex tag (some d)).datatype_iri =
      Iri.new_unchecked RDF_DIR_LANG_STRING) ∧
    RDF_LANG_STRING = "http://www.w3.org/1999/02/22-rdf-syntax-ns#langString" ∧
    RDF_DIR_LANG_STRING = "http://www.w3.org/1999/02/22-rdf-syntax-ns#dirLangString" ∧
    (Literal.languageString "chat" ⟨"en"⟩ none).datatype_iri.txt =
      "http://www.w3.org/1999/02/22-rdf-syntax-ns#langString" ∧
    (Literal.languageString "chat" ⟨"en"⟩ (some .ltr)).datatype_iri.txt =
      "http://www.w3.org/1999/02/22-rdf-syntax-ns#dirLangString" := by
  exact ⟨fun lex dt => rfl, fun lex tag => rfl, fun lex tag d => rfl, rfl, rfl, rfl, rfl⟩

/-- C7: when `try_parse` succeeds, the stored text read back is byte-identical
to the input; construction performs no normalization. -/
theorem try_parse_round_trip :
    (∀ (s : String) (i : Iri), Iri.new s = some i → i.as_ref = s) ∧
    (∀ (s : String) (t : LangTag), LangTag.new s = some t → t.as_ref = s) := by
  constructor
  · intro s i h
    rw [Iri.new] at h
    by_cases hm : RE.matches IRI_REGEX s = true
    · rw [if_pos hm] at h
      cases h
      rfl
    · rw [if_neg hm] at h
      cases h
  · intro s t h
    rw [LangTag.new] at h
    by_cases hm : RE.matches TAG_REGEX s = true
    · rw [if_pos hm] at h
      cases h
      rfl
    · rw [if_neg hm] at h
      cases h

/-- Witness for C7 at the concrete accepted inputs "tag:" and "en". -/
theorem try_parse_round_trip_witness :
    (Iri.mk "tag:").as_ref = "tag:" ∧ (LangTag.mk "en").as_ref = "en" :=
  ⟨try_parse_round_trip.1 "tag:" (Iri.mk "tag:") (by decide),
   try_parse_round_trip.2 "en" (LangTag.mk "en") (by decide)⟩

/-- C8: decomposing a proxy value through its own role implementation yields
a value equal to the original, for all three proxy types. -/
theorem proxy_decompose_identity :
    (∀ p : SubjectProxy, p.as_subject_proxy = p) ∧
    (∀ p : ObjectProxy, p.as_object_proxy = p) ∧
    (∀ p : GraphNameProxy, p.as_graph_name_proxy = p) := by
  refine ⟨fun p => ?_, fun p => ?_, fun p => ?_⟩
  · cases p <;> rfl
  · cases p <;>
      simp [ObjectProxy.as_object_proxy, literal_borrowed_eq, iri_borrowed_eq]
  · cases p <;> rfl

/-- C9: the unchecked constructors always succeed and store exactly the
given text, `unchecked_map` applies its transform with no check of the
result, and only the separate `debug_assert_is_valid` condition of the
validation crate would flag the invalid text. -/
theorem unchecked_constructors_no_validation :
    (∀ s, (Iri.new_unchecked s).txt = s) ∧
    (∀ s, (LangTag.new_unchecked s).txt = s) ∧
    (∀ (i : Iri) (f : String → String), Iri.unchecked_map i f = Iri.new_unchecked (f i.txt)) ∧
    (∀ (t : LangTag) (f : String → String),
      LangTag.unchecked_map t f = LangTag.new_unchecked (f t.txt)) ∧
    (Iri.new_unchecked "not an iri").txt = "not an iri" ∧
    Iri.new "not an iri" = none ∧
    (Iri.new_unchecked "not an iri").debug_assert_is_valid = false ∧
    (LangTag.new_unchecked "12").txt = "12" ∧
    LangTag.new "12" = none ∧
    (LangTag.new_unchecked "12").debug_assert_is_valid = false := by
  refine ⟨fun s => rfl, fun s => rfl, fun i f => rfl, fun t f => rfl,
    ?_, ?_, ?_, ?_, ?_, ?_⟩ <;> decide
